import Mathlib

/-!
Shallow embedding of `inflammation/models.py`: the record model
(Observation, Patient, Doctor) and the statistics engine (`daily_mean`,
`daily_max`, `daily_min`, `daily_std`, `daily_above_threshold`,
`patient_normalise`), together with proofs of the claimed properties.

Floating-point values are modelled by the type `FP`: a rational number,
positive infinity, negative infinity, or NaN, with IEEE-style comparison
and division. NumPy matrices are lists of rows of `FP` values (for the
normalisation routine) or of rationals (for the purely finite statistics).
Python exceptions are modelled with `Except` over a `PyError` type.
-/

namespace Inflammation

/-- IEEE-style value: NaN, plus or minus infinity, or a finite number
(modelled as a rational). -/
inductive FP where
  | nan : FP
  | inf : FP
  | ninf : FP
  | fin : ℚ → FP
deriving DecidableEq, Repr

/-- IEEE-style strict less-than: any comparison with NaN is false. -/
def FP.lt : FP → FP → Bool
  | .nan, _ => false
  | _, .nan => false
  | .ninf, .ninf => false
  | .ninf, .inf => true
  | .ninf, .fin _ => true
  | .inf, _ => false
  | .fin _, .inf => true
  | .fin _, .ninf => false
  | .fin a, .fin b => decide (a < b)

/-- Elementwise test `x < 0`, as in the NumPy expression `data < 0`. -/
def FP.isNeg (x : FP) : Bool := FP.lt x (.fin 0)

/-- Binary maximum in the `FP.lt` order (used by the NaN-ignoring
row-maximum reduction). -/
def FP.max2 (a b : FP) : FP := if FP.lt a b then b else a

/-- IEEE-style division on `FP`: NaN propagates; `inf/inf` is NaN;
`finite/0` is a signed infinity except `0/0` which is NaN;
`finite/inf` is `0`. -/
def FP.div : FP → FP → FP
  | .nan, _ => .nan
  | _, .nan => .nan
  | .inf, .inf => .nan
  | .inf, .ninf => .nan
  | .ninf, .inf => .nan
  | .ninf, .ninf => .nan
  | .inf, .fin b => if b < 0 then .ninf else .inf
  | .ninf, .fin b => if b < 0 then .inf else .ninf
  | .fin _, .inf => .fin 0
  | .fin _, .ninf => .fin 0
  | .fin a, .fin b =>
      if b = 0 then (if a = 0 then .nan else if a < 0 then .ninf else .inf)
      else .fin (a / b)

/-- A 2D data array: a list of rows of `FP` values. -/
abbrev Matrix := List (List FP)

/-- `np.nanmax` of one row: the maximum over the non-NaN entries; NaN for
an all-NaN row (NumPy emits an all-NaN-slice warning and returns NaN). -/
def nanmax (row : List FP) : FP :=
  match row.filter (fun x => x ≠ FP.nan) with
  | [] => FP.nan
  | y :: ys => ys.foldl FP.max2 y

/-- Python exception surrogate. -/
inductive PyError where
  | valueError : String → PyError
  | typeError : String → PyError
  | indexError : String → PyError
deriving DecidableEq, Repr

/-- The NaN repair pass, elementwise: `normalised[np.isnan(normalised)] = 0`. -/
def fix_nan (y : FP) : FP := if y = FP.nan then FP.fin 0 else y

/-- The negative-clamp pass, elementwise: `normalised[normalised < 0] = 0`. -/
def fix_neg (y : FP) : FP := if FP.isNeg y then FP.fin 0 else y

/-- One row of `data / max_val[:, np.newaxis]` followed by the two
elementwise repair passes `normalised[np.isnan(normalised)] = 0` and
`normalised[normalised < 0] = 0` restricted to that row. -/
def normalise_row (row : List FP) : List FP :=
  let m := nanmax row
  ((row.map (fun x => FP.div x m)).map fix_nan).map fix_neg

/-- The arithmetic core of `patient_normalise` (everything after the two
precondition checks): per-row division by the row's NaN-ignoring maximum,
then NaN results replaced by 0, then negative results replaced by 0. -/
def normalise_core (data : Matrix) : Matrix := data.map normalise_row

/-- `patient_normalise` on an ndarray argument.
Line-by-line from the source: first `np.any(data < 0)` guards with
`ValueError`; the `isinstance` check then passes for an ndarray;
`np.nanmax(data, axis=1)` raises `ValueError` when the reduction axis is
zero-size (a row with no columns); otherwise the division and the two
repair passes produce the result. -/
def patient_normalise (data : Matrix) : Except PyError Matrix :=
  if data.any (fun row => row.any FP.isNeg) then
    .error (.valueError "Inflammation values should not be negative")
  else if data.any (fun row => row.isEmpty) then
    .error (.valueError
      "zero-size array to reduction operation fmax which has no identity")
  else
    .ok (normalise_core data)

/-- Is an `Except` result a success? -/
def exceptIsOk (e : Except PyError Matrix) : Bool :=
  match e with
  | .ok _ => true
  | .error _ => false

/-- Is an `Except` result a `TypeError`? -/
def resultIsTypeError (e : Except PyError Matrix) : Bool :=
  match e with
  | .error (.typeError _) => true
  | _ => false

/-- All rows have the same length (the source functions assume a
rectangular ndarray). -/
def rectangular (M : Matrix) : Bool :=
  M.all (fun row => row.length = (M.headD []).length)

/-- A Python value, as far as `patient_normalise` can observe it: a NumPy
ndarray, a bare number (int or float), a list, a string, or `None`. -/
inductive PyValue where
  | ndarray : Matrix → PyValue
  | scalar : FP → PyValue
  | pylist : List PyValue → PyValue
  | pystr : String → PyValue
  | pynone : PyValue

/-- Evaluation of `np.any(data < 0)`, the first statement of
`patient_normalise`. For an ndarray the comparison is elementwise; for a
bare number it is the ordinary numeric comparison; for a list, a string
or `None`, Python's `data < 0` itself raises `TypeError` before `np.any`
is ever called. -/
def ltZeroCheck : PyValue → Except PyError Bool
  | .ndarray m => .ok (m.any (fun row => row.any FP.isNeg))
  | .scalar x => .ok (FP.isNeg x)
  | .pylist _ => .error (.typeError
      "\x27<\x27 not supported between instances of \x27list\x27 and \x27int\x27")
  | .pystr _ => .error (.typeError
      "\x27<\x27 not supported between instances of \x27str\x27 and \x27int\x27")
  | .pynone => .error (.typeError
      "\x27<\x27 not supported between instances of \x27NoneType\x27 and \x27int\x27")

/-- `patient_normalise` on an arbitrary Python value, statement by
statement: first `np.any(data < 0)` (which may itself raise), then the
`ValueError` guard, then the `isinstance(data, np.ndarray)` guard, then
the ndarray computation. -/
def patient_normalise_py (data : PyValue) : Except PyError Matrix :=
  match ltZeroCheck data with
  | .error e => .error e
  | .ok neg =>
    if neg then
      .error (.valueError "Inflammation values should not be negative")
    else
      match data with
      | .ndarray m =>
          if m.any (fun row => row.isEmpty) then
            .error (.valueError
              "zero-size array to reduction operation fmax which has no identity")
          else .ok (normalise_core m)
      | _ => .error (.typeError "Inflammation data should be an Numpy nd-array")

/-- A heap of ndarrays; a reference is an index into the heap. Used to
state the frame property of `patient_normalise`: the function allocates a
fresh array for `normalised` and mutates only that fresh array in its two
repair passes, never its argument. -/
structure NpHeap where
  arrays : List Matrix

/-- `patient_normalise` with the array stores made explicit.
`data / max_val[:, np.newaxis]` allocates a fresh array `r1`; the two
in-place repair assignments update the heap at `r1` only; the reference
returned is `r1`. -/
def patient_normalise_heap (h : NpHeap) (r : Nat) : Except PyError (NpHeap × Nat) :=
  match h.arrays.get? r with
  | none => .error (.indexError "heap reference out of range")
  | some data =>
    if data.any (fun row => row.any FP.isNeg) then
      .error (.valueError "Inflammation values should not be negative")
    else if data.any (fun row => row.isEmpty) then
      .error (.valueError
        "zero-size array to reduction operation fmax which has no identity")
    else
      let divided := data.map (fun row => row.map (fun x => FP.div x (nanmax row)))
      let r1 := h.arrays.length
      let h1 : NpHeap := ⟨h.arrays ++ [divided]⟩
      let repaired1 := divided.map (fun row => row.map fix_nan)
      let h2 : NpHeap := ⟨h1.arrays.set r1 repaired1⟩
      let repaired2 := repaired1.map (fun row => row.map fix_neg)
      let h3 : NpHeap := ⟨h2.arrays.set r1 repaired2⟩
      .ok (h3, r1)

/-- Transpose of a rectangular matrix of rationals: the per-day (column)
views used by the `axis=0` reductions of the daily statistics. -/
def columns (data : List (List ℚ)) : List (List ℚ) := data.transpose

/-- `np.mean(data, axis=0)`: arithmetic mean of each column. -/
def daily_mean (data : List (List ℚ)) : List ℚ :=
  (columns data).map (fun c => c.sum / (c.length : ℚ))

/-- `np.max(data, axis=0)`: maximum of each column (columns are nonempty
whenever the matrix has at least one row, the only case any claim uses). -/
def daily_max (data : List (List ℚ)) : List ℚ :=
  (columns data).map (fun c => c.foldl max (c.headD 0))

/-- `np.min(data, axis=0)`: minimum of each column. -/
def daily_min (data : List (List ℚ)) : List ℚ :=
  (columns data).map (fun c => c.foldl min (c.headD 0))

/-- Population variance of one column: mean of the squared deviations
from the mean, divisor = count (not count − 1). -/
def pvar (c : List ℚ) : ℚ :=
  (c.map (fun x => (x - c.sum / (c.length : ℚ)) ^ 2)).sum / (c.length : ℚ)

/-- `np.std(data, axis=0)`: per-column population standard deviation,
the square root of the population variance. (NumPy computes in floating
point; the square root lives in `ℝ` here.) -/
noncomputable def daily_std (data : List (List ℚ)) : List ℝ :=
  (columns data).map (fun c => Real.sqrt ((pvar c : ℚ) : ℝ))

/-- `functools.reduce` with no initial value: raises on an empty list,
otherwise folds from the first element. -/
def reduce1 (f : ℤ → ℤ → ℤ) : List ℤ → Option ℤ
  | [] => none
  | x :: xs => some (xs.foldl f x)

/-- `daily_above_threshold`, statement by statement: index `data[patient_nr]`
(an `IndexError` when out of range), map the strict comparison over the
row, convert the booleans to ints, and sum them with `reduce` (a
`TypeError` on an empty row, since `reduce` has no initial value). -/
def daily_above_threshold (data : List (List ℚ)) (patient_nr : Nat) (threshold : ℚ) :
    Except PyError ℤ :=
  match data.get? patient_nr with
  | none => .error (.indexError "index out of bounds for axis 0")
  | some row =>
    let bools := row.map (fun x => decide (threshold < x))
    let int_bools := bools.map (fun b => if b then (1 : ℤ) else 0)
    match reduce1 (· + ·) int_bools with
    | none => .error (.typeError "reduce() of empty iterable with no initial value")
    | some s => .ok s

/-- An observation: a day and a value. -/
structure Observation where
  day : ℤ
  value : ℚ
deriving DecidableEq, Repr

/-- A patient: the inherited `Person` name plus an observation list. -/
structure Patient where
  name : String
  observations : List Observation
deriving DecidableEq, Repr

/-- `Patient.add_observation`: when no day is given, the day is the last
observation's day plus one, or 0 when the list is empty (the source reads
`self.observations[-1].day + 1` and catches `IndexError`). The new
observation is appended and returned. -/
def Patient.add_observation (p : Patient) (value : ℚ) (day : Option ℤ) :
    Patient × Observation :=
  let d : ℤ :=
    match day with
    | some d => d
    | none =>
      match p.observations.getLast? with
      | some o => o.day + 1
      | none => 0
  let new_observation : Observation := ⟨d, value⟩
  ({ p with observations := p.observations ++ [new_observation] }, new_observation)

/-- The heap of `Patient` objects; a patient reference is an index. Python
object identity (which is what list membership `in` compares for `Patient`
objects, since `Patient` defines no `__eq__`) is reference equality. -/
structure World where
  patients : List Patient

/-- A doctor: the inherited `Person` name plus a list of patient
references. -/
structure Doctor where
  name : String
  patients : List Nat
deriving DecidableEq, Repr

/-- The argument of `Doctor.add_patient`: an existing `Patient` object or
a bare name. -/
inductive PatientArg where
  | ref : Nat → PatientArg
  | pname : String → PatientArg

/-- `str(patient)` for the diagnostic message: a `Patient` prints its
name; a bare name prints itself. -/
def argName (w : World) : PatientArg → String
  | .ref r => ((w.patients.get? r).map Patient.name).getD ""
  | .pname s => s

/-- `Doctor.add_patient`: resolve the argument to a patient object
(constructing a fresh one from a bare name), then, if that object is not
already in the doctor's list, append it and return it; otherwise print a
diagnostic, leave all state unchanged and return `None`. The result is
(world, doctor, returned reference, printed lines). -/
def Doctor.add_patient (w : World) (d : Doctor) (arg : PatientArg) :
    World × Doctor × Option Nat × List String :=
  let resolved : World × Nat :=
    match arg with
    | .ref r => (w, r)
    | .pname s => (⟨w.patients ++ [⟨s, []⟩]⟩, w.patients.length)
  let w1 := resolved.1
  let new_patient := resolved.2
  if new_patient ∈ d.patients then
    (w1, d, none,
      ["Patient with name " ++ argName w arg ++ " already in Doctor "
        ++ d.name ++ "\x27s list."])
  else
    (w1, { d with patients := d.patients ++ [new_patient] }, some new_patient, [])

lemma FP.lt_irrefl (a : FP) : FP.lt a a = false := by
  cases a <;> simp [FP.lt]

lemma FP.lt_asymm {a b : FP} (h : FP.lt a b = true) : FP.lt b a = false := by
  cases a <;> cases b <;> simp_all [FP.lt] <;> linarith

lemma FP.lt_false_trans {a b c : FP} (ha : a ≠ FP.nan) (hb : b ≠ FP.nan)
    (hc : c ≠ FP.nan) (h1 : FP.lt b a = false) (h2 : FP.lt c b = false) :
    FP.lt c a = false := by
  cases a <;> cases b <;> cases c <;> simp_all [FP.lt] <;> linarith

lemma FP.max2_ne_nan {a b : FP} (ha : a ≠ FP.nan) (hb : b ≠ FP.nan) :
    FP.max2 a b ≠ FP.nan := by
  unfold FP.max2
  by_cases h : FP.lt a b = true <;> simp [h, ha, hb]

lemma FP.max2_ub_left (a b : FP) : FP.lt (FP.max2 a b) a = false := by
  unfold FP.max2
  by_cases h : FP.lt a b = true
  · simp [h, FP.lt_asymm h]
  · simp [h, FP.lt_irrefl]

lemma FP.max2_ub_right (a b : FP) : FP.lt (FP.max2 a b) b = false := by
  unfold FP.max2
  by_cases h : FP.lt a b = true
  · simp [h, FP.lt_irrefl]
  · simp only [if_neg h]
    simpa using h

lemma foldl_max2_ub (ys : List FP) (y : FP) (hy : y ≠ FP.nan)
    (hys : ∀ z ∈ ys, z ≠ FP.nan) :
    ys.foldl FP.max2 y ≠ FP.nan ∧ FP.lt (ys.foldl FP.max2 y) y = false ∧
      ∀ z ∈ ys, FP.lt (ys.foldl FP.max2 y) z = false := by
  induction ys generalizing y with
  | nil => exact ⟨hy, FP.lt_irrefl y, by simp⟩
  | cons z zs ih =>
    have hz : z ≠ FP.nan := hys z (by simp)
    have hzs : ∀ w ∈ zs, w ≠ FP.nan := fun w hw => hys w (by simp [hw])
    have hmax : FP.max2 y z ≠ FP.nan := FP.max2_ne_nan hy hz
    obtain ⟨h1, h2, h3⟩ := ih (FP.max2 y z) hmax hzs
    have hyy : FP.lt ((z :: zs).foldl FP.max2 y) y = false := by
      simpa using FP.lt_false_trans hy hmax h1 (FP.max2_ub_left y z) h2
    have hzz : FP.lt ((z :: zs).foldl FP.max2 y) z = false := by
      simpa using FP.lt_false_trans hz hmax h1 (FP.max2_ub_right y z) h2
    refine ⟨by simpa using h1, hyy, ?_⟩
    intro w hw
    rcases List.mem_cons.mp hw with hwz | hwzs
    · exact hwz ▸ hzz
    · simpa using h3 w hwzs

lemma nanmax_ub (row : List FP) (x : FP) (hx : x ∈ row) (hxn : x ≠ FP.nan) :
    nanmax row ≠ FP.nan ∧ FP.lt (nanmax row) x = false := by
  have hxf : x ∈ row.filter (fun z => z ≠ FP.nan) := by
    simp [List.mem_filter, hx, hxn]
  unfold nanmax
  cases hfil : row.filter (fun z => z ≠ FP.nan) with
  | nil => rw [hfil] at hxf; simp at hxf
  | cons y ys =>
    have hall : ∀ z ∈ y :: ys, z ≠ FP.nan := by
      intro z hz
      rw [← hfil] at hz
      have := (List.mem_filter.mp hz).2
      simpa using this
    have hy : y ≠ FP.nan := hall y (by simp)
    have hys : ∀ z ∈ ys, z ≠ FP.nan := fun z hz => hall z (by simp [hz])
    obtain ⟨h1, h2, h3⟩ := foldl_max2_ub ys y hy hys
    rw [hfil] at hxf
    refine ⟨h1, ?_⟩
    rcases List.mem_cons.mp hxf with hxy | hxys
    · exact hxy ▸ h2
    · exact h3 x hxys

lemma foldl_max2_zeros (xs : List FP) (hz : ∀ x ∈ xs, x = FP.fin 0) :
    xs.foldl FP.max2 (FP.fin 0) = FP.fin 0 := by
  induction xs with
  | nil => rfl
  | cons x xs ih =>
    have hx : x = FP.fin 0 := hz x (by simp)
    have hxs : ∀ w ∈ xs, w = FP.fin 0 := fun w hw => hz w (by simp [hw])
    have hmax : FP.max2 (FP.fin 0) (FP.fin 0) = FP.fin 0 := by
      simp [FP.max2, FP.lt]
    simp only [List.foldl_cons, hx, hmax]
    exact ih hxs

lemma nanmax_all_zero (row : List FP) (hne : row ≠ [])
    (hz : ∀ x ∈ row, x = FP.fin 0) : nanmax row = FP.fin 0 := by
  have hfil : row.filter (fun z => z ≠ FP.nan) = row := by
    rw [List.filter_eq_self]
    intro a ha
    simp [hz a ha]
  unfold nanmax
  rw [hfil]
  cases row with
  | nil => exact absurd rfl hne
  | cons x xs =>
    have hx : x = FP.fin 0 := hz x (by simp)
    have hxs : ∀ w ∈ xs, w = FP.fin 0 := fun w hw => hz w (by simp [hw])
    simpa [hx] using foldl_max2_zeros xs hxs

lemma nanmax_all_nan (row : List FP) (hn : ∀ x ∈ row, x = FP.nan) :
    nanmax row = FP.nan := by
  have hfil : row.filter (fun z => z ≠ FP.nan) = [] := by
    rw [List.filter_eq_nil_iff]
    intro a ha
    simp [hn a ha]
  unfold nanmax
  rw [hfil]

lemma normalise_row_length (row : List FP) :
    (normalise_row row).length = row.length := by
  simp [normalise_row]

lemma mem_normalise_row {row : List FP} {y : FP} (hy : y ∈ normalise_row row) :
    ∃ x ∈ row, y = fix_neg (fix_nan (FP.div x (nanmax row))) := by
  simp only [normalise_row, List.mem_map] at hy
  obtain ⟨b, ⟨a, ⟨x, hx, hax⟩, hab⟩, hby⟩ := hy
  exact ⟨x, hx, by rw [← hby, ← hab, ← hax]⟩

lemma normalise_row_unit (row : List FP) (hnn : ∀ x ∈ row, FP.isNeg x = false)
    (m : ℚ) (hm : nanmax row = FP.fin m) (hpos : 0 < m) :
    ∀ y ∈ normalise_row row, ∃ q : ℚ, y = FP.fin q ∧ 0 ≤ q ∧ q ≤ 1 := by
  intro y hy
  obtain ⟨x, hx, hyx⟩ := mem_normalise_row hy
  cases x with
  | nan =>
    refine ⟨0, ?_, le_refl 0, by norm_num⟩
    rw [hyx, hm]
    simp [FP.div, fix_nan, fix_neg, FP.isNeg, FP.lt]
  | inf =>
    exfalso
    have hub := (nanmax_ub row FP.inf hx (by simp)).2
    rw [hm] at hub
    simp [FP.lt] at hub
  | ninf =>
    exfalso
    have := hnn FP.ninf hx
    simp [FP.isNeg, FP.lt] at this
  | fin q =>
    have h0 : 0 ≤ q := by
      have := hnn (FP.fin q) hx
      simp [FP.isNeg, FP.lt] at this
      linarith
    have hub := (nanmax_ub row (FP.fin q) hx (by simp)).2
    rw [hm] at hub
    simp [FP.lt] at hub
    have hqm : q ≤ m := by linarith
    have hdiv : FP.div (FP.fin q) (FP.fin m) = FP.fin (q / m) := by
      simp [FP.div, ne_of_gt hpos]
    have hnonneg : 0 ≤ q / m := div_nonneg h0 (le_of_lt hpos)
    refine ⟨q / m, ?_, hnonneg, (div_le_one hpos).mpr hqm⟩
    rw [hyx, hm, hdiv]
    simp [fix_nan, fix_neg, FP.isNeg, FP.lt, not_lt.mpr hnonneg]

lemma normalise_row_zeros (row : List FP) (hne : row ≠ [])
    (hz : ∀ x ∈ row, x = FP.fin 0) :
    ∀ y ∈ normalise_row row, y = FP.fin 0 := by
  intro y hy
  obtain ⟨x, hx, hyx⟩ := mem_normalise_row hy
  rw [hyx, hz x hx, nanmax_all_zero row hne hz]
  simp [FP.div, fix_nan, fix_neg, FP.isNeg, FP.lt]

lemma normalise_row_nans (row : List FP) (hn : ∀ x ∈ row, x = FP.nan) :
    ∀ y ∈ normalise_row row, y = FP.fin 0 := by
  intro y hy
  obtain ⟨x, hx, hyx⟩ := mem_normalise_row hy
  rw [hyx, hn x hx, nanmax_all_nan row hn]
  simp [FP.div, fix_nan, fix_neg, FP.isNeg, FP.lt]

lemma patient_normalise_ok (M : Matrix)
    (hnn : ∀ row ∈ M, ∀ x ∈ row, FP.isNeg x = false)
    (hne : ∀ row ∈ M, row ≠ []) :
    patient_normalise M = Except.ok (normalise_core M) := by
  have hany : M.any (fun row => row.any FP.isNeg) = false := by
    simp only [List.any_eq_false, Bool.not_eq_true]
    exact hnn
  have hempty : M.any (fun row => row.isEmpty) = false := by
    simp only [List.any_eq_false, Bool.not_eq_true]
    intro row hrow
    cases row with
    | nil => exact absurd rfl (hne [] hrow)
    | cons a as => rfl
  unfold patient_normalise
  rw [hany, hempty]
  rfl

lemma normalise_core_get (M : Matrix) {i : Nat} {rowM rowR : List FP}
    (hM : M.get? i = some rowM)
    (hR : (normalise_core M).get? i = some rowR) :
    rowR = normalise_row rowM := by
  have h1 : (normalise_core M).get? i = some (normalise_row rowM) := by
    show (M.map normalise_row).get? i = some (normalise_row rowM)
    rw [List.get?_map, hM]
    rfl
  rw [h1] at hR
  exact (Option.some.inj hR).symm

/-- Claim C1 (amended): for every rectangular matrix with no negative
entries whose rows are nonempty (NumPy raises on a zero-size row
maximum), `patient_normalise` succeeds, the result has the same shape as
the input, and every result entry whose input row has a positive finite
NaN-ignoring maximum is a finite value in the closed range [0, 1]. -/
theorem patient_normalise_shape_unit_range (M : Matrix)
    (hrect : rectangular M = true)
    (hnn : ∀ row ∈ M, ∀ x ∈ row, FP.isNeg x = false)
    (hne : ∀ row ∈ M, row ≠ []) :
    ∃ R, patient_normalise M = Except.ok R ∧
      R.map List.length = M.map List.length ∧
      ∀ i rowM rowR, M.get? i = some rowM → R.get? i = some rowR →
        ∀ m : ℚ, nanmax rowM = FP.fin m → 0 < m →
          ∀ y ∈ rowR, ∃ q : ℚ, y = FP.fin q ∧ 0 ≤ q ∧ q ≤ 1 := by
  refine ⟨normalise_core M, patient_normalise_ok M hnn hne, ?_, ?_⟩
  · simp only [normalise_core, List.map_map]
    exact List.map_congr_left fun row _ => by
      simp [Function.comp, normalise_row_length]
  · intro i rowM rowR hM hR m hm hpos
    rw [normalise_core_get M hM hR]
    exact normalise_row_unit rowM (hnn rowM (List.get?_mem hM)) m hm hpos

/-- Claim C1 counterexample: the 1 × 0 matrix is rectangular with no
negative entries, yet `patient_normalise` raises (NumPy's zero-size
reduction error in `np.nanmax`) instead of returning a matrix. -/
theorem patient_normalise_zero_columns_fails :
    exceptIsOk (patient_normalise [[]]) = false ∧
      rectangular [[]] = true ∧
      ([[]] : Matrix).all (fun row => row.all (fun x => !FP.isNeg x)) = true :=
  ⟨rfl, rfl, rfl⟩

/-- Claim C1 witness: the amended theorem applied to `[[1, 2]]`. -/
theorem patient_normalise_shape_unit_range_witness :
    ∃ R, patient_normalise [[FP.fin 1, FP.fin 2]] = Except.ok R ∧
      R.map List.length = ([[FP.fin 1, FP.fin 2]] : Matrix).map List.length ∧
      ∀ i rowM rowR,
        ([[FP.fin 1, FP.fin 2]] : Matrix).get? i = some rowM →
        R.get? i = some rowR →
        ∀ m : ℚ, nanmax rowM = FP.fin m → 0 < m →
          ∀ y ∈ rowR, ∃ q : ℚ, y = FP.fin q ∧ 0 ≤ q ∧ q ≤ 1 :=
  patient_normalise_shape_unit_range [[FP.fin 1, FP.fin 2]]
    (by decide) (by decide) (by decide)

/-- Claim C2 (amended): any matrix with a negative entry makes
`patient_normalise` raise `ValueError` immediately, before any
computation; the message in the source is
"Inflammation values should not be negative" (the spec quotes
"values must not be negative"). -/
theorem patient_normalise_negative_error (M : Matrix)
    (h : ∃ row ∈ M, ∃ x ∈ row, FP.isNeg x = true) :
    patient_normalise M
      = Except.error (PyError.valueError
          "Inflammation values should not be negative") := by
  have hany : M.any (fun row => row.any FP.isNeg) = true := by
    simp only [List.any_eq_true]
    obtain ⟨row, hrow, x, hx, hneg⟩ := h
    exact ⟨row, hrow, x, hx, hneg⟩
  simp [patient_normalise, hany]

/-- Claim C2 counterexample: at the spec's own example matrix
`[[1, -1], [2, 3]]` the raised error carries the message
"Inflammation values should not be negative", which is not the message
"values must not be negative" stated by the claim. -/
theorem patient_normalise_negative_message_differs :
    patient_normalise [[FP.fin 1, FP.fin (-1)], [FP.fin 2, FP.fin 3]]
        = Except.error (PyError.valueError
            "Inflammation values should not be negative") ∧
      (("Inflammation values should not be negative" : String)
          == "values must not be negative") = false :=
  ⟨rfl, by decide⟩

/-- Claim C2 witness: the amended theorem applied to `[[5, -2]]`. -/
theorem patient_normalise_negative_error_witness :
    patient_normalise [[FP.fin 5, FP.fin (-2)]]
      = Except.error (PyError.valueError
          "Inflammation values should not be negative") :=
  patient_normalise_negative_error [[FP.fin 5, FP.fin (-2)]] (by decide)

/-- Claim C5 (amended): for a non-negative rectangular matrix whose rows
are nonempty, each input row that is entirely zero or entirely NaN comes
out of `patient_normalise` as an all-zero row (the division produces NaN
there, which the repair pass replaces with 0). -/
theorem patient_normalise_degenerate_rows (M : Matrix)
    (hrect : rectangular M = true)
    (hnn : ∀ row ∈ M, ∀ x ∈ row, FP.isNeg x = false)
    (hne : ∀ row ∈ M, row ≠ []) :
    ∃ R, patient_normalise M = Except.ok R ∧
      ∀ i rowM rowR, M.get? i = some rowM → R.get? i = some rowR →
        ((∀ x ∈ rowM, x = FP.fin 0) ∨ (∀ x ∈ rowM, x = FP.nan)) →
        ∀ y ∈ rowR, y = FP.fin 0 := by
  refine ⟨normalise_core M, patient_normalise_ok M hnn hne, ?_⟩
  intro i rowM rowR hM hR hdeg
  rw [normalise_core_get M hM hR]
  rcases hdeg with hz | hn
  · exact normalise_row_zeros rowM (hne rowM (List.get?_mem hM)) hz
  · exact normalise_row_nans rowM hn

/-- Claim C5 counterexample: the 2 × 0 matrix is non-negative and
rectangular and its rows are (vacuously) entirely zero, yet
`patient_normalise` raises instead of producing all-zero rows. -/
theorem patient_normalise_degenerate_zero_columns :
    exceptIsOk (patient_normalise [[], []]) = false ∧
      rectangular [[], []] = true ∧
      ([[], []] : Matrix).all (fun row => row.all (fun x => !FP.isNeg x)) = true :=
  ⟨rfl, rfl, rfl⟩

/-- Claim C5 witness: the amended theorem applied to the matrix with an
all-zero row and an all-NaN row. -/
theorem patient_normalise_degenerate_rows_witness :
    ∃ R, patient_normalise [[FP.fin 0, FP.fin 0], [FP.nan, FP.nan]]
        = Except.ok R ∧
      ∀ i rowM rowR,
        ([[FP.fin 0, FP.fin 0], [FP.nan, FP.nan]] : Matrix).get? i = some rowM →
        R.get? i = some rowR →
        ((∀ x ∈ rowM, x = FP.fin 0) ∨ (∀ x ∈ rowM, x = FP.nan)) →
        ∀ y ∈ rowR, y = FP.fin 0 :=
  patient_normalise_degenerate_rows [[FP.fin 0, FP.fin 0], [FP.nan, FP.nan]]
    (by decide) (by decide) (by decide)

lemma any_neg_false {M : Matrix}
    (hnn : ∀ row ∈ M, ∀ x ∈ row, FP.isNeg x = false) :
    M.any (fun row => row.any FP.isNeg) = false := by
  simp only [List.any_eq_false, Bool.not_eq_true]
  exact hnn

lemma any_empty_false {M : Matrix} (hne : ∀ row ∈ M, row ≠ []) :
    M.any (fun row => row.isEmpty) = false := by
  simp only [List.any_eq_false, Bool.not_eq_true]
  intro row hrow
  cases row with
  | nil => exact absurd rfl (hne [] hrow)
  | cons a as => rfl

/-- Claim C4: on a valid input (a stored matrix with no negative entries
and no zero-size rows), `patient_normalise` leaves the input array
untouched on the heap and returns a freshly allocated array: the result
reference differs from the argument reference and the argument still
holds its original value afterwards. -/
theorem patient_normalise_heap_no_mutation (h : NpHeap) (r : Nat) (data : Matrix)
    (hr : h.arrays.get? r = some data)
    (hnn : ∀ row ∈ data, ∀ x ∈ row, FP.isNeg x = false)
    (hne : ∀ row ∈ data, row ≠ []) :
    ∃ h1 r1, patient_normalise_heap h r = Except.ok (h1, r1) ∧
      r1 ≠ r ∧ h1.arrays.get? r = some data := by
  have hany := any_neg_false hnn
  have hempty := any_empty_false hne
  have hrlt : r < h.arrays.length := by
    by_contra hge
    rw [List.get?_eq_none.mpr (le_of_not_lt hge)] at hr
    cases hr
  unfold patient_normalise_heap
  rw [hr]
  dsimp only
  rw [hany, hempty]
  refine ⟨_, _, rfl, (Nat.ne_of_lt hrlt).symm, ?_⟩
  rw [List.get?_set_ne _ _ (Nat.ne_of_lt hrlt).symm,
    List.get?_set_ne _ _ (Nat.ne_of_lt hrlt).symm,
    List.get?_append hrlt, hr]

/-- Claim C4 witness: the theorem applied to a one-array heap holding
`[[1, 2]]`. -/
theorem patient_normalise_heap_no_mutation_witness :
    ∃ h1 r1,
      patient_normalise_heap ⟨[[[FP.fin 1, FP.fin 2]]]⟩ 0 = Except.ok (h1, r1) ∧
      r1 ≠ 0 ∧ h1.arrays.get? 0 = some [[FP.fin 1, FP.fin 2]] :=
  patient_normalise_heap_no_mutation ⟨[[[FP.fin 1, FP.fin 2]]]⟩ 0
    [[FP.fin 1, FP.fin 2]] rfl (by decide) (by decide)

/-- Claim C3 (amended): a non-ndarray argument always makes
`patient_normalise` raise immediately, but not always with a
`TypeError`: a bare negative number passes the `np.any(data < 0)` check
first and raises the negative-values `ValueError`; every other
non-ndarray argument raises a `TypeError`, either from the unsupported
`data < 0` comparison (lists, strings, `None`) or from the explicit
`isinstance` guard (non-negative numbers). -/
theorem patient_normalise_py_non_ndarray (v : PyValue)
    (h : ∀ m : Matrix, v ≠ PyValue.ndarray m) :
    (∃ msg, patient_normalise_py v = Except.error (PyError.typeError msg)) ∨
      (∃ x, v = PyValue.scalar x ∧ FP.isNeg x = true ∧
        patient_normalise_py v = Except.error (PyError.valueError
          "Inflammation values should not be negative")) := by
  cases v with
  | ndarray m => exact absurd rfl (h m)
  | scalar x =>
    by_cases hx : FP.isNeg x = true
    · right
      exact ⟨x, rfl, hx, by simp [patient_normalise_py, ltZeroCheck, hx]⟩
    · left
      refine ⟨"Inflammation data should be an Numpy nd-array", ?_⟩
      have hx' : FP.isNeg x = false := by simpa using hx
      simp [patient_normalise_py, ltZeroCheck, hx']
  | pylist l => exact Or.inl ⟨_, rfl⟩
  | pystr s => exact Or.inl ⟨_, rfl⟩
  | pynone => exact Or.inl ⟨_, rfl⟩

/-- Claim C3 counterexample: the bare number `-5` is not an ndarray, yet
`patient_normalise` raises `ValueError` (the negative-values check fires
first), not a `TypeError`. -/
theorem patient_normalise_py_negative_scalar :
    patient_normalise_py (PyValue.scalar (FP.fin (-5)))
        = Except.error (PyError.valueError
            "Inflammation values should not be negative") ∧
      resultIsTypeError (patient_normalise_py (PyValue.scalar (FP.fin (-5))))
        = false :=
  ⟨rfl, rfl⟩

/-- Claim C3 witness: the amended theorem applied to `None`. -/
theorem patient_normalise_py_non_ndarray_witness :
    (∃ msg, patient_normalise_py PyValue.pynone
        = Except.error (PyError.typeError msg)) ∨
      (∃ x, PyValue.pynone = PyValue.scalar x ∧ FP.isNeg x = true ∧
        patient_normalise_py PyValue.pynone
          = Except.error (PyError.valueError
              "Inflammation values should not be negative")) :=
  patient_normalise_py_non_ndarray PyValue.pynone (fun m hm => by cases hm)

lemma foldl_add_indicator (p : ℚ → Bool) (l : List ℚ) (a : ℤ) :
    ((l.map p).map (fun b => if b then (1 : ℤ) else 0)).foldl (· + ·) a
      = a + (l.countP p : ℕ) := by
  induction l generalizing a with
  | nil => simp
  | cons x xs ih =>
    simp only [List.map_cons, List.foldl_cons, List.countP_cons]
    rw [ih]
    by_cases hp : p x = true
    · simp [hp]
      ring
    · simp [hp]

/-- Claim C6: on `[[1,2],[3,4]]` the daily statistics are mean `[2,3]`,
max `[3,4]`, min `[1,2]`, and population standard deviation `[1,1]`
(divisor = count; the sample deviation would be `[√2, √2]`). -/
theorem daily_stats_example :
    daily_mean [[1, 2], [3, 4]] = [2, 3] ∧
      daily_max [[1, 2], [3, 4]] = [3, 4] ∧
      daily_min [[1, 2], [3, 4]] = [1, 2] ∧
      daily_std [[1, 2], [3, 4]] = [1, 1] := by
  have htr : columns ([[1, 2], [3, 4]] : List (List ℚ)) = [[1, 3], [2, 4]] := rfl
  refine ⟨?_, ?_, ?_, ?_⟩
  · unfold daily_mean
    rw [htr]
    norm_num [List.sum_cons, List.sum_nil]
  · unfold daily_max
    rw [htr]
    norm_num [List.foldl_cons, List.foldl_nil, List.headD, max_def]
  · unfold daily_min
    rw [htr]
    norm_num [List.foldl_cons, List.foldl_nil, List.headD, min_def]
  · unfold daily_std
    rw [htr]
    norm_num [pvar, List.sum_cons, List.sum_nil, Real.sqrt_one]

/-- Claim C7 (amended): for a valid row index addressing a nonempty row,
`daily_above_threshold` returns the number of entries of that row that
are strictly greater than the threshold (on an empty row the `reduce`
call raises instead, see the counterexample). -/
theorem daily_above_threshold_counts (data : List (List ℚ)) (i : Nat)
    (row : List ℚ) (t : ℚ) (hrow : data.get? i = some row) (hne : row ≠ []) :
    daily_above_threshold data i t
      = Except.ok ((row.countP (fun x => decide (t < x)) : ℕ) : ℤ) := by
  unfold daily_above_threshold
  rw [hrow]
  dsimp only
  cases row with
  | nil => exact absurd rfl hne
  | cons x xs =>
    simp only [List.map_cons, reduce1]
    rw [foldl_add_indicator]
    rw [List.countP_cons]
    by_cases hp : decide (t < x) = true
    · simp [hp]
      ring
    · simp [hp]

/-- Claim C7 counterexample: on the 1 × 0 matrix with the valid row index
0, the claimed count is 0 but the code raises `TypeError` from `reduce`
over the empty row. -/
theorem daily_above_threshold_zero_columns :
    daily_above_threshold [[]] 0 3
        = Except.error (PyError.typeError
            "reduce() of empty iterable with no initial value") ∧
      ([] : List ℚ).countP (fun x => decide ((3 : ℚ) < x)) = 0 :=
  ⟨rfl, rfl⟩

/-- Claim C7 witness: the amended theorem applied to the spec's example:
`daily_above_threshold([[1,5,9],[2,2,2]], 0, 3) = 2`. -/
theorem daily_above_threshold_counts_witness :
    daily_above_threshold [[1, 5, 9], [2, 2, 2]] 0 3 = Except.ok 2 := by
  rw [daily_above_threshold_counts [[1, 5, 9], [2, 2, 2]] 0 [1, 5, 9] 3 rfl
    (by decide)]
  rfl

/-- Claim C10: whenever the addressed row is empty (a matrix with zero
columns), `daily_above_threshold` raises the `reduce`-of-empty-iterable
`TypeError` instead of returning the count 0. -/
theorem daily_above_threshold_empty_row_error (data : List (List ℚ)) (i : Nat)
    (t : ℚ) (h : data.get? i = some []) :
    daily_above_threshold data i t
      = Except.error (PyError.typeError
          "reduce() of empty iterable with no initial value") := by
  unfold daily_above_threshold
  rw [h]
  rfl

/-- Claim C10 witness: the theorem applied to `[[], [5]]` at row 0. -/
theorem daily_above_threshold_empty_row_error_witness :
    daily_above_threshold [[], [5]] 0 1
      = Except.error (PyError.typeError
          "reduce() of empty iterable with no initial value") :=
  daily_above_threshold_empty_row_error [[], [5]] 0 1 rfl

/-- Claim C8: `Patient.add_observation` with no explicit day assigns day
0 when the observation list is empty and the last observation's day plus
one otherwise; the created observation carries the given value and is
appended and returned. -/
theorem add_observation_default_day (p : Patient) (v : ℚ) :
    (p.add_observation v none).2.day
        = (match p.observations.getLast? with
           | some o => o.day + 1
           | none => 0) ∧
      (p.add_observation v none).1.observations
        = p.observations ++ [(p.add_observation v none).2] ∧
      (p.add_observation v none).2.value = v :=
  ⟨rfl, rfl, rfl⟩

/-- Claim C9: calling `Doctor.add_patient` twice with the same `Patient`
object (the same heap reference) stores the reference once: the first
call appends and returns it, the second call changes neither the world
nor the doctor, returns `None`, and prints a diagnostic instead of
raising; afterwards the doctor holds exactly one copy of the
reference. -/
theorem add_patient_same_instance_idempotent (w : World) (d : Doctor) (r : Nat)
    (hnew : r ∉ d.patients)
    (w1 : World) (d1 : Doctor) (ret1 : Option Nat) (out1 : List String)
    (h1 : Doctor.add_patient w d (PatientArg.ref r) = (w1, d1, ret1, out1))
    (w2 : World) (d2 : Doctor) (ret2 : Option Nat) (out2 : List String)
    (h2 : Doctor.add_patient w1 d1 (PatientArg.ref r) = (w2, d2, ret2, out2)) :
    ret1 = some r ∧ d1.patients.count r = 1 ∧
      w2 = w1 ∧ d2 = d1 ∧ ret2 = none ∧ out2 ≠ [] ∧
      d2.patients.count r = 1 := by
  unfold Doctor.add_patient at h1 h2
  dsimp only at h1 h2
  rw [if_neg hnew] at h1
  simp only [Prod.mk.injEq] at h1
  obtain ⟨hw1, hd1, hret1, hout1⟩ := h1
  subst hw1 hd1 hret1 hout1
  have hcount : (d.patients ++ [r]).count r = 1 := by
    rw [List.count_append, List.count_eq_zero.mpr hnew]
    simp
  have hmem : r ∈ d.patients ++ [r] :=
    List.mem_append_right _ (List.mem_singleton_self r)
  rw [if_pos hmem] at h2
  simp only [Prod.mk.injEq] at h2
  obtain ⟨hw2, hd2, hret2, hout2⟩ := h2
  subst hw2 hd2 hret2 hout2
  exact ⟨rfl, hcount, rfl, rfl, rfl, by simp, hcount⟩

/-- Claim C9 witness: the theorem applied to a doctor "Bob" and the
stored patient "Alice" (reference 0), added twice. -/
theorem add_patient_same_instance_idempotent_witness :
    (some 0 : Option Nat) = some 0 ∧ ([0] : List Nat).count 0 = 1 ∧
      (⟨[⟨"Alice", []⟩]⟩ : World) = ⟨[⟨"Alice", []⟩]⟩ ∧
      (⟨"Bob", [0]⟩ : Doctor) = ⟨"Bob", [0]⟩ ∧
      (none : Option Nat) = none ∧
      (["Patient with name Alice already in Doctor Bob\x27s list."]
        : List String) ≠ [] ∧
      ([0] : List Nat).count 0 = 1 :=
  add_patient_same_instance_idempotent ⟨[⟨"Alice", []⟩]⟩ ⟨"Bob", []⟩ 0
    (by decide)
    ⟨[⟨"Alice", []⟩]⟩ ⟨"Bob", [0]⟩ (some 0) [] rfl
    ⟨[⟨"Alice", []⟩]⟩ ⟨"Bob", [0]⟩ none
    ["Patient with name Alice already in Doctor Bob\x27s list."] rfl

/-- Claim C8 witness: adding value 7 with no explicit day to the fresh
patient "Alice" appends an observation with day 0 and value 7 and
returns it. -/
theorem add_observation_default_day_witness :
    ((⟨"Alice", []⟩ : Patient).add_observation 7 none).2.day
        = (match ([] : List Observation).getLast? with
           | some o => o.day + 1
           | none => 0) ∧
      ((⟨"Alice", []⟩ : Patient).add_observation 7 none).1.observations
        = [] ++ [((⟨"Alice", []⟩ : Patient).add_observation 7 none).2] ∧
      ((⟨"Alice", []⟩ : Patient).add_observation 7 none).2.value = 7 :=
  add_observation_default_day ⟨"Alice", []⟩ 7

end Inflammation
